import Mathlib

/-!
Verification of the event-driven failure detector of BFTList
(`modules/event_driven_fd/module.py`), shallowly embedded in Lean 4.

Modelling decisions:
* Python dicts with int keys are association lists `List (Nat × Nat)` in
  insertion order; a `d[k] += 1` on a missing key raises `KeyError`, which we
  model with `Except String`.
* Epoch tokens come from `time.time()`; we model token values as `Nat` and
  make each fresh clock reading an explicit input of the round step.
* Network sends (`resolver.send_to_node`) are returned as a list of `OutMsg`
  effects instead of being performed; the `time.sleep(1)` delay in
  `on_msg_recv` is recorded as a `Bool` effect flag.
* `K_ADMISSIBILITY_THRESHOLD` is imported from `modules.constants`, which is
  outside the embedded sources; every function taking the threshold receives
  it as an explicit parameter `K`.
-/

namespace BFTList

/-- The message type enum member used by the failure detector
(`resolve.enums.MessageType.EVENT_DRIVEN_FD_MESSAGE`). -/
inductive MessageType where
  | EVENT_DRIVEN_FD_MESSAGE
  deriving DecidableEq, Repr

/-- The `data` payload of a failure-detector message:
`{"token": token, "owner_id": owner_id}`. -/
structure MsgData where
  token : Nat
  owner_id : Nat
  deriving DecidableEq, Repr

/-- A failure-detector message
`{"type": ..., "sender": ..., "data": {...}}`. -/
structure FDMessage where
  type : MessageType
  sender : Nat
  data : MsgData
  deriving DecidableEq, Repr

/-- One call of `resolver.send_to_node(processor_id, msg, True)`, recorded as
an effect. -/
structure OutMsg where
  target : Nat
  msg : FDMessage
  reliable : Bool
  deriving DecidableEq, Repr

/-- The `last_correct_processors` record
`{"token": ..., "correct_processors": ...}` published at the end of a round.
The empty dict `{}` is modelled by `Option.none` around this structure. -/
structure RoundResult where
  token : Nat
  correct_processors : List Nat
  deriving DecidableEq, Repr

/-- The mutable state of `EventDrivenFDModule` (the resolver collaborator is
modelled by the returned effect lists instead of a field). -/
structure EventDrivenFDModule where
  id : Nat
  number_of_nodes : Nat
  number_of_byzantine : Nat
  token : Nat
  counters : List (Nat × Nat)
  last_correct_processors : Option RoundResult
  deriving DecidableEq, Repr

/-- The keys of a Python dict, in insertion order (`for k in d`). -/
def dictKeys (d : List (Nat × Nat)) : List Nat :=
  d.map Prod.fst

/-- Python dict lookup `d[k]`, as an `Option`. -/
def dictFind (d : List (Nat × Nat)) (k : Nat) : Option Nat :=
  match d.find? (fun p => p.1 = k) with
  | some p => some p.2
  | none => none

/-- Dict lookup for a key known to be present (used when iterating the dict's
own keys, where Python's `d[k]` cannot fail); defaults to 0 otherwise. -/
def dictGet (d : List (Nat × Nat)) (k : Nat) : Nat :=
  (dictFind d k).getD 0

/-- Python `d[k] += 1`: `KeyError` (here `none`) when `k` is not a key,
otherwise the updated dict. -/
def dictIncr (d : List (Nat × Nat)) (k : Nat) : Option (List (Nat × Nat)) :=
  if (dictKeys d).contains k then
    some (d.map (fun p => if p.1 = k then (p.1, p.2 + 1) else p))
  else
    none

/-- `{n_id: 0 for n_id in range(number_of_nodes) if n_id != id}` — the fresh
counter dict built in `__init__` and at every round reset. -/
def initCounters (number_of_nodes id : Nat) : List (Nat × Nat) :=
  ((List.range number_of_nodes).filter (fun n_id => n_id ≠ id)).map
    (fun n_id => (n_id, 0))

/-- `send_token(processor_id, token, owner_id)`: builds the message with this
node as sender and records the `send_to_node(processor_id, msg, True)` call. -/
def send_token (m : EventDrivenFDModule) (processor_id tok owner_id : Nat) :
    OutMsg :=
  { target := processor_id
    msg :=
      { type := MessageType.EVENT_DRIVEN_FD_MESSAGE
        sender := m.id
        data := { token := tok, owner_id := owner_id } }
    reliable := true }

/-- `broadcast()`: sends the current token, owned by this node, to every
other node. -/
def broadcast (m : EventDrivenFDModule) : List OutMsg :=
  ((List.range m.number_of_nodes).filter (fun pid => pid ≠ m.id)).map
    (fun pid => send_token m pid m.token m.id)

/-- `get_correct_processors()`: ids of peers whose counter is positive, plus
self. -/
def get_correct_processors (m : EventDrivenFDModule) : List Nat :=
  ((dictKeys m.counters).filter (fun n_id => 0 < dictGet m.counters n_id)) ++
    [m.id]

/-- `correct_processors_have_replied()` for admissibility threshold `K`:
`len([n_id for n_id in counters if counters[n_id] >= K] + [self.id])
 >= number_of_nodes - 2 * number_of_byzantine` (Python int arithmetic, hence
the comparison over `Int`). -/
def correct_processors_have_replied (m : EventDrivenFDModule) (K : Nat) :
    Bool :=
  let correct_processors :=
    ((dictKeys m.counters).filter (fun n_id => K ≤ dictGet m.counters n_id))
      ++ [m.id]
  (m.number_of_nodes : Int) - 2 * (m.number_of_byzantine : Int) ≤
    (correct_processors.length : Int)

/-- `get_last_correct_processors()`: `[]` when no round has completed,
otherwise the stored id list. -/
def get_last_correct_processors (m : EventDrivenFDModule) : List Nat :=
  match m.last_correct_processors with
  | none => []
  | some r => r.correct_processors

/-- `get_correct_processors_for_timestamp(timestamp)`: `[]` when no round
has completed or the stored token is older than `timestamp`, otherwise the
last recorded set. -/
def get_correct_processors_for_timestamp (m : EventDrivenFDModule)
    (timestamp : Nat) : List Nat :=
  match m.last_correct_processors with
  | none => []
  | some r =>
      if r.token < timestamp then []
      else get_last_correct_processors m

/-- The result of one `on_msg_recv` call: the new state, whether the
`time.sleep(1)` delay ran, and the sends performed. -/
structure RecvResult where
  state : EventDrivenFDModule
  delayed : Bool
  sends : List OutMsg
  deriving DecidableEq, Repr

/-- `on_msg_recv(msg)`: if this node owns the token and it matches the
current one, increment the sender's counter (a `KeyError`, modelled as
`Except.error`, when the sender is not a counter key); if this node owns the
token but it is stale, return without acting. Otherwise fall through to the
hardcoded id-0 delay and echo the token back to the sender. -/
def on_msg_recv (m : EventDrivenFDModule) (msg : FDMessage) :
    Except String RecvResult :=
  let sender_id := msg.sender
  let tok := msg.data.token
  let owner_id := msg.data.owner_id
  if owner_id = m.id then
    if tok = m.token then
      match dictIncr m.counters sender_id with
      | none => Except.error "KeyError"
      | some c =>
          let m2 : EventDrivenFDModule := { m with counters := c }
          Except.ok
            { state := m2
              delayed := m2.id = 0
              sends := [send_token m2 sender_id tok owner_id] }
    else
      Except.ok { state := m, delayed := false, sends := [] }
  else
    Except.ok
      { state := m
        delayed := m.id = 0
        sends := [send_token m sender_id tok owner_id] }

/-- One iteration of the `run()` loop body, after the quorum wait has been
passed: broadcast the current token, publish the round result, reset the
counters, and mint the next token from the fresh clock reading
`newToken` (= `time.time()`). -/
def runOnce (m : EventDrivenFDModule) (newToken : Nat) :
    EventDrivenFDModule × List OutMsg :=
  let sends := broadcast m
  let correct_ids := get_correct_processors m
  let m2 : EventDrivenFDModule :=
    { m with
      last_correct_processors :=
        some { token := m.token, correct_processors := correct_ids }
      counters := initCounters m.number_of_nodes m.id
      token := newToken }
  (m2, sends)

/-- An event observed by the module: an inbound message handled by
`on_msg_recv`, or the completion of a round (with the clock reading used to
mint the next token). -/
inductive FDEvent where
  | recv (msg : FDMessage)
  | finishRound (newToken : Nat)
  deriving DecidableEq, Repr

/-- The state after one event. A `KeyError` in `on_msg_recv` aborts the
handler before any mutation, so the state is unchanged in that case. -/
def stepState (m : EventDrivenFDModule) (e : FDEvent) : EventDrivenFDModule :=
  match e with
  | FDEvent.recv msg =>
      match on_msg_recv m msg with
      | Except.ok r => r.state
      | Except.error _ => m
  | FDEvent.finishRound t => (runOnce m t).1

/-- The state after a sequence of events. -/
def runTrace (m : EventDrivenFDModule) (evs : List FDEvent) :
    EventDrivenFDModule :=
  evs.foldl stepState m

/-- The clock readings minted along a trace, in order. -/
def finishTokens (evs : List FDEvent) : List Nat :=
  evs.filterMap (fun e =>
    match e with
    | FDEvent.finishRound t => some t
    | FDEvent.recv _ => none)

/-- The monotonic-clock assumption of the spec, as an executable check:
every fresh `time.time()` reading taken at a round boundary is strictly
greater than the token it replaces. -/
def clockMono (m : EventDrivenFDModule) : List FDEvent → Bool
  | [] => true
  | e :: rest =>
      (match e with
       | FDEvent.finishRound t => decide (m.token < t)
       | FDEvent.recv _ => true) && clockMono (stepState m e) rest

/-- A node as in the unit tests: id 0 in a system with `n = 6`, `f = 1`,
fresh counters, no completed round. -/
def sampleModule : EventDrivenFDModule :=
  { id := 0
    number_of_nodes := 6
    number_of_byzantine := 1
    token := 100
    counters := initCounters 6 0
    last_correct_processors := none }

/-- A message relayed through node 0: token 123 owned by node 5, arriving
from node 4. -/
def relayMsg : FDMessage :=
  { type := MessageType.EVENT_DRIVEN_FD_MESSAGE
    sender := 4
    data := { token := 123, owner_id := 5 } }

/-- The result of node 0 handling `relayMsg`: untouched state, the hardcoded
id-0 delay, and the echo back to node 4. -/
def relayResult0 : RecvResult :=
  { state := sampleModule
    delayed := true
    sends := [send_token sampleModule 4 123 5] }

/-- A small event trace for node 0: one valid echo from node 3, then two
round completions with clock readings 200 and 300. -/
def sampleTrace : List FDEvent :=
  [FDEvent.recv
    { type := MessageType.EVENT_DRIVEN_FD_MESSAGE
      sender := 3
      data := { token := 100, owner_id := 0 } },
   FDEvent.finishRound 200,
   FDEvent.finishRound 300]

theorem on_msg_recv_preserves_token (m : EventDrivenFDModule)
    (msg : FDMessage) (r : RecvResult) (h : on_msg_recv m msg = Except.ok r) :
    r.state.token = m.token := by
  unfold on_msg_recv at h
  by_cases h1 : msg.data.owner_id = m.id
  · by_cases h2 : msg.data.token = m.token
    · simp only [h1, h2, if_pos rfl] at h
      cases hc : dictIncr m.counters msg.sender with
      | none => rw [hc] at h; exact absurd h (by simp)
      | some c =>
          rw [hc] at h
          cases h
          rfl
    · simp only [h1, h2, if_pos rfl, if_neg h2] at h
      cases h
      rfl
  · simp only [if_neg h1] at h
    cases h
    rfl

theorem stepState_recv_token (m : EventDrivenFDModule) (msg : FDMessage) :
    (stepState m (FDEvent.recv msg)).token = m.token := by
  have hred : stepState m (FDEvent.recv msg) =
      (match on_msg_recv m msg with
       | Except.ok r => r.state
       | Except.error _ => m) := rfl
  rw [hred]
  cases h : on_msg_recv m msg with
  | ok r => exact on_msg_recv_preserves_token m msg r h
  | error e => rfl

theorem length_filter_ne_range (n id : Nat) :
    id < n → (((List.range n).filter (fun x => x ≠ id)).length) = n - 1 := by
  induction n with
  | zero => intro h; omega
  | succ k ih =>
      intro h
      rw [List.range_succ, List.filter_append, List.length_append]
      by_cases hk : id = k
      · have hself : (List.range k).filter (fun x => x ≠ id) =
            List.range k :=
          List.filter_eq_self.mpr (by
            intro a ha
            simp only [List.mem_range] at ha
            simp only [decide_eq_true_eq]
            omega)
        have hdrop : ([k].filter (fun x => x ≠ id)) = [] := by
          simp [hk]
        rw [hself, hdrop]
        simp
      · have hidk : id < k := by omega
        rw [ih hidk]
        have hkeep : ([k].filter (fun x => x ≠ id)) = [k] := by
          simp [Ne.symm hk]
        rw [hkeep]
        simp
        omega

/-- C1: `correct_processors_have_replied` is true iff the number of distinct
peers whose echo counter is at least `K`, plus self, is at least `n − 2f`;
in particular it is false whenever fewer than `n − 2f − 1` peers reach `K`. -/
theorem correct_processors_have_replied_iff (m : EventDrivenFDModule)
    (K : Nat) (hnd : (dictKeys m.counters).Nodup) :
    (correct_processors_have_replied m K = true ↔
      (m.number_of_nodes : Int) - 2 * (m.number_of_byzantine : Int) ≤
        (((dictKeys m.counters).toFinset.filter
            (fun k => K ≤ dictGet m.counters k)).card : Int) + 1) ∧
    ((((dictKeys m.counters).toFinset.filter
          (fun k => K ≤ dictGet m.counters k)).card : Int) <
        (m.number_of_nodes : Int) - 2 * (m.number_of_byzantine : Int) - 1 →
      correct_processors_have_replied m K = false) := by
  have hfin : ((dictKeys m.counters).filter
        (fun k => K ≤ dictGet m.counters k)).toFinset =
      (dictKeys m.counters).toFinset.filter
        (fun k => K ≤ dictGet m.counters k) := by
    rw [List.toFinset_filter]
    apply Finset.filter_congr
    intro x _
    simp
  have hcard : (((dictKeys m.counters).toFinset.filter
        (fun k => K ≤ dictGet m.counters k)).card) =
      (((dictKeys m.counters).filter
        (fun k => K ≤ dictGet m.counters k)).length) := by
    rw [← hfin]
    exact List.toFinset_card_of_nodup (hnd.filter _)
  have hbool : correct_processors_have_replied m K = true ↔
      (m.number_of_nodes : Int) - 2 * (m.number_of_byzantine : Int) ≤
        ((((dictKeys m.counters).filter
            (fun k => K ≤ dictGet m.counters k)).length : Int) + 1) := by
    unfold correct_processors_have_replied
    simp
  constructor
  · rw [hbool, hcard]
  · intro hlt
    rw [hcard] at hlt
    rw [Bool.eq_false_iff]
    intro hrep
    have := hbool.mp hrep
    omega

/-- C1 witness: with counters `{1:3, 2:3, 3:3, 4:3, 5:1}` (n = 6, f = 1,
K = 3) four peers reach the threshold and the predicate is true; with all
counters zero it is false. -/
theorem correct_processors_have_replied_iff_witness :
    correct_processors_have_replied
      { sampleModule with
          counters := [(1, 3), (2, 3), (3, 3), (4, 3), (5, 1)] } 3 = true ∧
    correct_processors_have_replied sampleModule 3 = false := by
  constructor
  · exact (correct_processors_have_replied_iff
      { sampleModule with
          counters := [(1, 3), (2, 3), (3, 3), (4, 3), (5, 1)] } 3
      (by decide)).1.mpr (by decide)
  · exact (correct_processors_have_replied_iff sampleModule 3
      (by decide)).2 (by decide)

/-- C2: the recorded correct-processor list always contains self, contains
every peer whose counter reaches the (positive) threshold `K`, and is exactly
`[self]` when no peer has echoed. -/
theorem get_correct_processors_spec (m : EventDrivenFDModule) (K : Nat)
    (hK : 1 ≤ K) :
    m.id ∈ get_correct_processors m ∧
    (∀ k ∈ dictKeys m.counters, K ≤ dictGet m.counters k →
      k ∈ get_correct_processors m) ∧
    ((∀ p ∈ m.counters, p.2 = 0) → get_correct_processors m = [m.id]) := by
  refine ⟨?_, ?_, ?_⟩
  · unfold get_correct_processors
    simp
  · intro k hk hK'
    unfold get_correct_processors
    rw [List.mem_append]
    left
    rw [List.mem_filter]
    refine ⟨hk, ?_⟩
    simp only [decide_eq_true_eq]
    omega
  · intro hzero
    unfold get_correct_processors
    have hnil : (dictKeys m.counters).filter
        (fun n_id => 0 < dictGet m.counters n_id) = [] := by
      rw [List.filter_eq_nil_iff]
      intro k hk
      simp only [decide_eq_true_eq, not_lt, Nat.le_zero]
      unfold dictGet dictFind
      cases hf : m.counters.find? (fun p => p.1 = k) with
      | none => rfl
      | some p =>
          have hp := List.mem_of_find?_eq_some hf
          simp [hzero p hp]
    rw [hnil]
    rfl

/-- C2 witness: at `K = 3` with counters `{1:3, 2:4, 3:2, 4:0, 5:0}` the set
contains self (0) and the threshold-reaching peer 1; with all counters zero
it is exactly `[0]`. -/
theorem get_correct_processors_spec_witness :
    (0 ∈ get_correct_processors
      { sampleModule with
          counters := [(1, 3), (2, 4), (3, 2), (4, 0), (5, 0)] } ∧
     1 ∈ get_correct_processors
      { sampleModule with
          counters := [(1, 3), (2, 4), (3, 2), (4, 0), (5, 0)] }) ∧
    get_correct_processors sampleModule = [0] := by
  refine ⟨⟨?_, ?_⟩, ?_⟩
  · exact (get_correct_processors_spec
      { sampleModule with
          counters := [(1, 3), (2, 4), (3, 2), (4, 0), (5, 0)] } 3
      (by decide)).1
  · exact (get_correct_processors_spec
      { sampleModule with
          counters := [(1, 3), (2, 4), (3, 2), (4, 0), (5, 0)] } 3
      (by decide)).2.1 1 (by decide) (by decide)
  · exact (get_correct_processors_spec sampleModule 3 (by decide)).2.2
      (by decide)

/-- C3: a message owning this node's id but carrying a token different from
the current one changes no state, runs no delay and sends nothing. -/
theorem on_msg_recv_stale_own_token (m : EventDrivenFDModule)
    (msg : FDMessage) (h1 : msg.data.owner_id = m.id)
    (h2 : msg.data.token ≠ m.token) :
    on_msg_recv m msg =
      Except.ok { state := m, delayed := false, sends := [] } := by
  unfold on_msg_recv
  simp [h1, h2]

/-- C3 witness: node 0 holding token 100 receives its own token 99 from
node 3 — the state is returned unchanged with no sends. -/
theorem on_msg_recv_stale_own_token_witness :
    on_msg_recv sampleModule
      { type := MessageType.EVENT_DRIVEN_FD_MESSAGE
        sender := 3
        data := { token := 99, owner_id := 0 } } =
      Except.ok { state := sampleModule, delayed := false, sends := [] } :=
  on_msg_recv_stale_own_token sampleModule
    { type := MessageType.EVENT_DRIVEN_FD_MESSAGE
      sender := 3
      data := { token := 99, owner_id := 0 } } (by decide) (by decide)

/-- C4: the timestamped query returns the full last-recorded set when the
stored token is at least the timestamp, and the empty list when the stored
token is older than the timestamp or no round has completed yet. -/
theorem get_correct_processors_for_timestamp_spec (m : EventDrivenFDModule)
    (ts : Nat) :
    (m.last_correct_processors = none →
      get_correct_processors_for_timestamp m ts = []) ∧
    (∀ r, m.last_correct_processors = some r →
      (r.token < ts → get_correct_processors_for_timestamp m ts = []) ∧
      (ts ≤ r.token →
        get_correct_processors_for_timestamp m ts = r.correct_processors)) := by
  constructor
  · intro hnone
    unfold get_correct_processors_for_timestamp
    rw [hnone]
  · intro r hsome
    constructor
    · intro hlt
      unfold get_correct_processors_for_timestamp
      rw [hsome]
      simp [hlt]
    · intro hge
      unfold get_correct_processors_for_timestamp
      rw [hsome]
      have hnot : ¬ r.token < ts := by omega
      simp only [if_neg hnot]
      unfold get_last_correct_processors
      rw [hsome]

/-- C4 witness: with published result `{token 100, [0, 1, 2, 3, 4, 5]}` the
query at 100 returns the full set, the query at 101 returns `[]`, and with
no published result the query at 0 returns `[]`. -/
theorem get_correct_processors_for_timestamp_spec_witness :
    get_correct_processors_for_timestamp
      { sampleModule with
          last_correct_processors :=
            some { token := 100, correct_processors := [0, 1, 2, 3, 4, 5] } }
      100 = [0, 1, 2, 3, 4, 5] ∧
    get_correct_processors_for_timestamp
      { sampleModule with
          last_correct_processors :=
            some { token := 100, correct_processors := [0, 1, 2, 3, 4, 5] } }
      101 = [] ∧
    get_correct_processors_for_timestamp sampleModule 0 = [] := by
  refine ⟨?_, ?_, ?_⟩
  · exact ((get_correct_processors_for_timestamp_spec
      { sampleModule with
          last_correct_processors :=
            some { token := 100, correct_processors := [0, 1, 2, 3, 4, 5] } }
      100).2 { token := 100, correct_processors := [0, 1, 2, 3, 4, 5] }
      rfl).2 (by decide)
  · exact ((get_correct_processors_for_timestamp_spec
      { sampleModule with
          last_correct_processors :=
            some { token := 100, correct_processors := [0, 1, 2, 3, 4, 5] } }
      101).2 { token := 100, correct_processors := [0, 1, 2, 3, 4, 5] }
      rfl).1 (by decide)
  · exact (get_correct_processors_for_timestamp_spec sampleModule 0).1 rfl

/-- C5: along any event trace whose fresh clock readings are strictly
increasing (the spec's monotonic-clock assumption on `time.time()`), the
node's successive round tokens are strictly increasing; message handling
never changes the token. -/
theorem tokens_strictly_increase (m : EventDrivenFDModule)
    (evs : List FDEvent) (h : clockMono m evs = true) :
    List.Chain' (fun a b => a < b) (m.token :: finishTokens evs) := by
  induction evs generalizing m with
  | nil => simp [finishTokens]
  | cons e rest ih =>
      cases e with
      | recv msg =>
          have hrest :
              clockMono (stepState m (FDEvent.recv msg)) rest = true := by
            simpa [clockMono] using h
          have hchain := ih (stepState m (FDEvent.recv msg)) hrest
          rw [stepState_recv_token] at hchain
          have hft : finishTokens (FDEvent.recv msg :: rest) =
              finishTokens rest := rfl
          rw [hft]
          exact hchain
      | finishRound t =>
          have h1 : m.token < t ∧
              clockMono (stepState m (FDEvent.finishRound t)) rest = true := by
            simpa [clockMono] using h
          have hchain := ih (stepState m (FDEvent.finishRound t)) h1.2
          have htok : (stepState m (FDEvent.finishRound t)).token = t := rfl
          rw [htok] at hchain
          have hft : finishTokens (FDEvent.finishRound t :: rest) =
              t :: finishTokens rest := rfl
          rw [hft, List.chain'_cons]
          exact ⟨h1.1, hchain⟩

/-- C5 witness: node 0 starting at token 100, handling one echo and
finishing two rounds with clock readings 200 then 300, mints the strictly
increasing token chain 100, 200, 300. -/
theorem tokens_strictly_increase_witness :
    List.Chain' (fun a b => a < b)
      (sampleModule.token :: finishTokens sampleTrace) :=
  tokens_strictly_increase sampleModule sampleTrace (by decide)

/-- C6: one round step publishes the round result for the old token and then
resets the counters to a map with exactly one zero entry for every node id
below `n` other than self — `n − 1` entries in all. -/
theorem runOnce_publishes_and_resets (m : EventDrivenFDModule) (t : Nat)
    (hid : m.id < m.number_of_nodes) :
    (runOnce m t).1.last_correct_processors =
      some { token := m.token
             correct_processors := get_correct_processors m } ∧
    (dictKeys (runOnce m t).1.counters).Nodup ∧
    (∀ k, k ∈ dictKeys (runOnce m t).1.counters ↔
      (k < m.number_of_nodes ∧ k ≠ m.id)) ∧
    (∀ p ∈ (runOnce m t).1.counters, p.2 = 0) ∧
    (runOnce m t).1.counters.length = m.number_of_nodes - 1 := by
  have hc : (runOnce m t).1.counters =
      initCounters m.number_of_nodes m.id := rfl
  have hkeys : dictKeys (runOnce m t).1.counters =
      (List.range m.number_of_nodes).filter (fun x => x ≠ m.id) := by
    rw [hc]
    unfold initCounters dictKeys
    rw [List.map_map]
    have hcomp : (Prod.fst ∘ fun n_id : Nat => (n_id, (0 : Nat))) =
        (id : Nat → Nat) := rfl
    rw [hcomp, List.map_id]
  refine ⟨rfl, ?_, ?_, ?_, ?_⟩
  · rw [hkeys]
    exact List.Nodup.filter _ (List.nodup_range _)
  · intro k
    rw [hkeys]
    simp [List.mem_filter, List.mem_range]
  · intro p hp
    rw [hc] at hp
    unfold initCounters at hp
    rcases List.mem_map.mp hp with ⟨a, _, rfl⟩
    rfl
  · rw [hc]
    unfold initCounters
    rw [List.length_map]
    exact length_filter_ne_range m.number_of_nodes m.id hid

/-- C6 witness: node 0's round step with clock reading 200 publishes
`{token 100, [0]}` and resets the counters to the five zero entries for
peers 1–5. -/
theorem runOnce_publishes_and_resets_witness :
    (runOnce sampleModule 200).1.last_correct_processors =
      some { token := 100, correct_processors := [0] } ∧
    (runOnce sampleModule 200).1.counters.length = 5 ∧
    (∀ p ∈ (runOnce sampleModule 200).1.counters, p.2 = 0) := by
  have h := runOnce_publishes_and_resets sampleModule 200 (by decide)
  exact ⟨h.1.trans (by decide), h.2.2.2.2.trans rfl, h.2.2.2.1⟩

/-- C7: a message whose token is owned by another node leaves the state
untouched and is echoed back to its sender with the identical token and
owner id, this node as sender, over the reliable channel. -/
theorem on_msg_recv_relays_foreign_token (m : EventDrivenFDModule)
    (msg : FDMessage) (h : msg.data.owner_id ≠ m.id) :
    on_msg_recv m msg =
      Except.ok
        { state := m
          delayed := decide (m.id = 0)
          sends :=
            [{ target := msg.sender
               msg :=
                 { type := MessageType.EVENT_DRIVEN_FD_MESSAGE
                   sender := m.id
                   data :=
                     { token := msg.data.token
                       owner_id := msg.data.owner_id } }
               reliable := true }] } := by
  unfold on_msg_recv
  rw [if_neg h]
  rfl

/-- C7 witness: node 0 relays `relayMsg` (token 123 owned by node 5) back to
node 4 unchanged, with its own id as sender and untouched counters. -/
theorem on_msg_recv_relays_foreign_token_witness :
    on_msg_recv sampleModule relayMsg =
      Except.ok
        { state := sampleModule
          delayed := decide (sampleModule.id = 0)
          sends :=
            [{ target := relayMsg.sender
               msg :=
                 { type := MessageType.EVENT_DRIVEN_FD_MESSAGE
                   sender := sampleModule.id
                   data :=
                     { token := relayMsg.data.token
                       owner_id := relayMsg.data.owner_id } }
               reliable := true }] } :=
  on_msg_recv_relays_foreign_token sampleModule relayMsg (by decide)

/-- C8: the code, not the claim, is at fault — a message carrying this
node's own current token but naming a sender that is not a counter key (its
own id 0, or the out-of-range id 7) makes `self.counters[sender_id] += 1`
raise a fatal `KeyError` instead of being rejected defensively. -/
theorem on_msg_recv_unknown_sender_keyerror :
    on_msg_recv sampleModule
      { type := MessageType.EVENT_DRIVEN_FD_MESSAGE
        sender := 0
        data := { token := 100, owner_id := 0 } } =
      Except.error "KeyError" ∧
    on_msg_recv sampleModule
      { type := MessageType.EVENT_DRIVEN_FD_MESSAGE
        sender := 7
        data := { token := 100, owner_id := 0 } } =
      Except.error "KeyError" :=
  ⟨rfl, rfl⟩

/-- C9 counterexample: two nodes differing only in their id (every other
state and configuration field equal, and no latency configuration existing
at all) handle the same relayed message with different delay behaviour —
the delay is keyed to the hardcoded identity 0, not to configuration. -/
theorem on_msg_recv_delay_differs_by_id_only :
    on_msg_recv sampleModule relayMsg =
      Except.ok
        { state := sampleModule
          delayed := true
          sends := [send_token sampleModule 4 123 5] } ∧
    on_msg_recv { sampleModule with id := 1 } relayMsg =
      Except.ok
        { state := { sampleModule with id := 1 }
          delayed := false
          sends := [send_token { sampleModule with id := 1 } 4 123 5] } :=
  ⟨rfl, rfl⟩

/-- C9 amended: the delay is a hardcoded identity check — whenever
`on_msg_recv` replies at all it first sleeps exactly when the node's id
is 0, and on the silent-drop path it never sleeps. -/
theorem on_msg_recv_delay_iff_id_zero (m : EventDrivenFDModule)
    (msg : FDMessage) (r : RecvResult)
    (h : on_msg_recv m msg = Except.ok r) :
    (r.sends = [] → r.delayed = false) ∧
    (r.sends ≠ [] → r.delayed = decide (m.id = 0)) := by
  unfold on_msg_recv at h
  by_cases h1 : msg.data.owner_id = m.id
  · by_cases h2 : msg.data.token = m.token
    · simp only [h1, h2, if_pos rfl] at h
      cases hc : dictIncr m.counters msg.sender with
      | none => rw [hc] at h; exact absurd h (by simp)
      | some c =>
          rw [hc] at h
          cases h
          constructor
          · intro hnil; exact absurd hnil (by simp)
          · intro _; rfl

    · simp only [h1, if_pos rfl, if_neg h2] at h
      cases h
      constructor
      · intro _; rfl
      · intro hne; exact absurd rfl hne
  · simp only [if_neg h1] at h
    cases h
    constructor
    · intro hnil; exact absurd hnil (by simp)
    · intro _; rfl

/-- C9 amended witness: node 0's handling of `relayMsg` replies and its
delay flag equals the id-0 test. -/
theorem on_msg_recv_delay_iff_id_zero_witness :
    relayResult0.sends ≠ [] ∧
    relayResult0.delayed = decide (sampleModule.id = 0) :=
  ⟨by decide,
   (on_msg_recv_delay_iff_id_zero sampleModule relayMsg relayResult0
     rfl).2 (by decide)⟩

theorem dictGet_map_incr (d : List (Nat × Nat)) (k : Nat)
    (hk : (dictKeys d).contains k = true) :
    dictGet (d.map (fun p => if p.1 = k then (p.1, p.2 + 1) else p)) k =
      dictGet d k + 1 := by
  induction d with
  | nil => simp [dictKeys] at hk
  | cons p rest ih =>
      by_cases hp : p.1 = k
      · simp [dictGet, dictFind, List.find?, hp]
      · have hk' : (dictKeys rest).contains k = true := by
          simp only [dictKeys, List.map_cons, List.contains_cons] at hk
          rcases Bool.or_eq_true_iff.mp hk with hhead | htail
          · have hke : k = p.1 := by simpa using hhead
            exact absurd hke.symm hp
          · exact htail
        have hrec := ih hk'
        simp only [List.map_cons, if_neg hp]
        simp only [dictGet, dictFind, List.find?] at hrec ⊢
        simp only [hp, decide_eq_true_eq, if_neg hp] at hrec ⊢
        simpa [hp] using hrec

/-- C10: a message carrying this node's own current token from a known peer
both increments that peer's counter by one and is echoed back to the peer
with the identical token and owner id. -/
theorem on_msg_recv_own_token_increments_and_echoes
    (m : EventDrivenFDModule) (msg : FDMessage)
    (h1 : msg.data.owner_id = m.id) (h2 : msg.data.token = m.token)
    (h3 : (dictKeys m.counters).contains msg.sender = true) :
    on_msg_recv m msg =
      Except.ok
        { state :=
            { m with
              counters := m.counters.map
                (fun p => if p.1 = msg.sender then (p.1, p.2 + 1) else p) }
          delayed := decide (m.id = 0)
          sends :=
            [{ target := msg.sender
               msg :=
                 { type := MessageType.EVENT_DRIVEN_FD_MESSAGE
                   sender := m.id
                   data :=
                     { token := msg.data.token
                       owner_id := msg.data.owner_id } }
               reliable := true }] } ∧
    dictGet
      (m.counters.map
        (fun p => if p.1 = msg.sender then (p.1, p.2 + 1) else p))
      msg.sender = dictGet m.counters msg.sender + 1 := by
  constructor
  · unfold on_msg_recv send_token
    rw [h1, h2]
    simp only [if_pos rfl]
    unfold dictIncr
    rw [h3]
    simp [h1, h2]
  · exact dictGet_map_incr m.counters msg.sender h3

/-- C10 witness: node 0 at token 100 receiving its own token 100 from
node 3 bumps counter 3 from 0 to 1 and echoes token 100, owner 0, back to
node 3. -/
theorem on_msg_recv_own_token_increments_and_echoes_witness :
    on_msg_recv sampleModule
      { type := MessageType.EVENT_DRIVEN_FD_MESSAGE
        sender := 3
        data := { token := 100, owner_id := 0 } } =
      Except.ok
        { state :=
            { sampleModule with
              counters := sampleModule.counters.map
                (fun p => if p.1 = 3 then (p.1, p.2 + 1) else p) }
          delayed := decide (sampleModule.id = 0)
          sends :=
            [{ target := 3
               msg :=
                 { type := MessageType.EVENT_DRIVEN_FD_MESSAGE
                   sender := sampleModule.id
                   data := { token := 100, owner_id := 0 } }
               reliable := true }] } ∧
    dictGet
      (sampleModule.counters.map
        (fun p => if p.1 = 3 then (p.1, p.2 + 1) else p)) 3 =
      dictGet sampleModule.counters 3 + 1 :=
  on_msg_recv_own_token_increments_and_echoes sampleModule
    { type := MessageType.EVENT_DRIVEN_FD_MESSAGE
      sender := 3
      data := { token := 100, owner_id := 0 } }
    (by decide) (by decide) (by decide)

end BFTList
